import Mathlib

/-!
Verification of the bounded cursor buffer (`PacketBuffer`) from
`src/packet.rs` of the dns-server repository.

The Rust module defines a fixed-capacity byte buffer with a read cursor:

* `PACKET_BYTES_LENGTH = 512` is the fixed capacity;
* `PacketBuffer` holds `buf : [u8; 512]` and `pos : usize`;
* `new` constructs it with `pos = 0`;
* `step`, `seek` move the cursor with a bounds check;
* `read` returns `buf[pos]` and advances the cursor; `read_u16` composes
  two `read`s big-endian via the `?` operator;
* `get` and `get_range` are non-mutating (`&self`) reads.

Bytes are modelled as `Nat` (every `u8` value fits; the only arithmetic
performed on them is `(hi <<< 8) ||| lo`, which cannot overflow `u16`
for byte inputs). `usize` positions and arguments are modelled as `Nat`:
the Rust code only ever adds small quantities, and every addition is
guarded before use.

Errors: the Rust methods return `Result<_, String>` where the string is
built by `format!` from fixed text plus interpolated numbers. We model
an error as an inductive value whose constructor identifies which
operation's `format!` template was used and whose fields are exactly the
numbers interpolated into that template, in order. (E.g. the `seek`
template is `"Invalid seek, seeking past buffer boundary: buffer
length={}, seek={}"`, interpolating the capacity and the seek target
only, so `seekErr` carries exactly those two numbers.)
-/

/-- Rust: `const PACKET_BYTES_LENGTH: usize = 512;` -/
def PACKET_BYTES_LENGTH : Nat := 512

/-- The values interpolated into each Rust error `format!` string, one
constructor per `format!` template, fields in interpolation order.

* `stepErr`:  template of `step`:  "... buffer length={}, pos={}, step={}"
* `seekErr`:  template of `seek`:  "... buffer length={}, seek={}"
* `readErr`:  template of `read`:  "... buffer length={}, pos={}"
* `getErr`:   template of `get`:   "... buffer length={}, pos={}"
* `rangeErr`: template of `get_range`: "... buffer length={}, start={}, len={}"
-/
inductive BufErr where
  | stepErr (bufLen pos st : Nat)
  | seekErr (bufLen seekPos : Nat)
  | readErr (bufLen pos : Nat)
  | getErr (bufLen pos : Nat)
  | rangeErr (bufLen start len : Nat)
  deriving DecidableEq

/-- Rust: `pub struct PacketBuffer { buf: [u8; PACKET_BYTES_LENGTH], pos: usize }`.
The fixed-size array is a function out of `Fin PACKET_BYTES_LENGTH`. -/
@[ext]
structure PacketBuffer where
  buf : Fin PACKET_BYTES_LENGTH → Nat
  pos : Nat

/-- Rust: `PacketBuffer::new` — takes ownership of the array, `pos = 0`. -/
def PacketBuffer.new (buf : Fin PACKET_BYTES_LENGTH → Nat) : PacketBuffer :=
  { buf := buf, pos := 0 }

/-- The byte stored at index `i` (0 outside the array; every access in the
operations below is guarded by a bounds check, so the default is never
reached through them). Used to state theorems without dependent indices. -/
def PacketBuffer.byteAt (pb : PacketBuffer) (i : Nat) : Nat :=
  if h : i < PACKET_BYTES_LENGTH then pb.buf ⟨i, h⟩ else 0

/-- Rust: `PacketBuffer::step`. Mutates `self`, so the result carries the
post-call state alongside the `Result`; on the error path the state is
returned untouched, as in Rust where the early `return` precedes the
mutation. -/
def PacketBuffer.step (pb : PacketBuffer) (st : Nat) :
    Except BufErr Unit × PacketBuffer :=
  if pb.pos + st ≥ PACKET_BYTES_LENGTH then
    (Except.error (BufErr.stepErr PACKET_BYTES_LENGTH pb.pos st), pb)
  else
    (Except.ok (), { pb with pos := pb.pos + st })

/-- Rust: `PacketBuffer::seek`. -/
def PacketBuffer.seek (pb : PacketBuffer) (pos : Nat) :
    Except BufErr Unit × PacketBuffer :=
  if pos ≥ PACKET_BYTES_LENGTH then
    (Except.error (BufErr.seekErr PACKET_BYTES_LENGTH pos), pb)
  else
    (Except.ok (), { pb with pos := pos })

/-- Rust: `PacketBuffer::read`. Checks the bound, then returns
`self.buf[self.pos]` and increments the position. -/
def PacketBuffer.read (pb : PacketBuffer) :
    Except BufErr Nat × PacketBuffer :=
  if h : pb.pos ≥ PACKET_BYTES_LENGTH then
    (Except.error (BufErr.readErr PACKET_BYTES_LENGTH pb.pos), pb)
  else
    (Except.ok (pb.buf ⟨pb.pos, by omega⟩), { pb with pos := pb.pos + 1 })

/-- Rust: `PacketBuffer::read_u16`:
`Ok(((self.read()? as u16) << 8) | (self.read()? as u16))`.
Each `?` propagates the error, keeping whatever mutation the earlier
`read` already performed on `self`. -/
def PacketBuffer.read_u16 (pb : PacketBuffer) :
    Except BufErr Nat × PacketBuffer :=
  match pb.read with
  | (Except.error e, pb1) => (Except.error e, pb1)
  | (Except.ok hi, pb1) =>
    match pb1.read with
    | (Except.error e, pb2) => (Except.error e, pb2)
    | (Except.ok lo, pb2) => (Except.ok ((hi <<< 8) ||| lo), pb2)

/-- Rust: `PacketBuffer::get` — takes `&self`, so no state is returned. -/
def PacketBuffer.get (pb : PacketBuffer) : Except BufErr Nat :=
  if h : pb.pos ≥ PACKET_BYTES_LENGTH then
    Except.error (BufErr.getErr PACKET_BYTES_LENGTH pb.pos)
  else
    Except.ok (pb.buf ⟨pb.pos, by omega⟩)

/-- Rust: `PacketBuffer::get_range` — takes `&self`; on success returns
the slice `&self.buf[start..start + len]`, i.e. the `len` bytes at
indices `start, start+1, ...`. -/
def PacketBuffer.get_range (pb : PacketBuffer) (start len : Nat) :
    Except BufErr (List Nat) :=
  if h : start + len ≥ PACKET_BYTES_LENGTH then
    Except.error (BufErr.rangeErr PACKET_BYTES_LENGTH start len)
  else
    Except.ok (List.ofFn fun i : Fin len =>
      pb.buf ⟨start + i.val, by have := i.isLt; omega⟩)

/-- One buffer method call, with its arguments.  `posOp` is the `pos()`
accessor. Used to quantify over arbitrary sequences of calls. -/
inductive Op where
  | stepOp (st : Nat)
  | seekOp (t : Nat)
  | readOp
  | readU16Op
  | getOp
  | rangeOp (start len : Nat)
  | posOp
  deriving DecidableEq

/-- The buffer state after one call.  `step`/`seek`/`read`/`read_u16`
take `&mut self` and return the mutated state; `get`, `get_range` and
`pos` take `&self` and leave the state as is. -/
def runOp (pb : PacketBuffer) : Op → PacketBuffer
  | Op.stepOp st => (pb.step st).2
  | Op.seekOp t => (pb.seek t).2
  | Op.readOp => pb.read.2
  | Op.readU16Op => pb.read_u16.2
  | Op.getOp => pb
  | Op.rangeOp _ _ => pb
  | Op.posOp => pb

/-- The buffer state after a sequence of calls. -/
def runSeq (pb : PacketBuffer) (ops : List Op) : PacketBuffer :=
  ops.foldl runOp pb

/-- The all-zero 512-byte array. -/
def zeroBuf : Fin PACKET_BYTES_LENGTH → Nat := fun _ => 0

/-- A 512-byte array with `buf[0] = 3`, `buf[1] = 5`, zero elsewhere. -/
def exBuf : Fin PACKET_BYTES_LENGTH → Nat := fun i =>
  if i.val = 0 then 3 else if i.val = 1 then 5 else 0

/-! ### Helper lemmas -/

theorem read_ok (pb : PacketBuffer) (h : pb.pos < PACKET_BYTES_LENGTH) :
    pb.read = (Except.ok (pb.byteAt pb.pos), { pb with pos := pb.pos + 1 }) := by
  unfold PacketBuffer.read PacketBuffer.byteAt
  rw [dif_neg (by omega), dif_pos h]

theorem read_fail (pb : PacketBuffer) (h : pb.pos ≥ PACKET_BYTES_LENGTH) :
    pb.read = (Except.error (BufErr.readErr PACKET_BYTES_LENGTH pb.pos), pb) := by
  unfold PacketBuffer.read
  rw [dif_pos h]

theorem byteAt_setPos (pb : PacketBuffer) (p i : Nat) :
    ({ pb with pos := p } : PacketBuffer).byteAt i = pb.byteAt i := rfl

/-- Full case analysis of `read_u16` on the initial position. -/
theorem read_u16_eq (pb : PacketBuffer) :
    pb.read_u16 =
      if pb.pos + 1 < PACKET_BYTES_LENGTH then
        (Except.ok ((pb.byteAt pb.pos <<< 8) ||| pb.byteAt (pb.pos + 1)),
          { pb with pos := pb.pos + 2 })
      else if pb.pos < PACKET_BYTES_LENGTH then
        (Except.error (BufErr.readErr PACKET_BYTES_LENGTH (pb.pos + 1)),
          { pb with pos := pb.pos + 1 })
      else
        (Except.error (BufErr.readErr PACKET_BYTES_LENGTH pb.pos), pb) := by
  by_cases h1 : pb.pos < PACKET_BYTES_LENGTH
  · by_cases h2 : pb.pos + 1 < PACKET_BYTES_LENGTH
    · unfold PacketBuffer.read_u16
      rw [read_ok pb h1]
      dsimp only
      rw [read_ok { pb with pos := pb.pos + 1 }
        (show pb.pos + 1 < PACKET_BYTES_LENGTH from h2)]
      dsimp only
      rw [if_pos h2]
      simp [PacketBuffer.byteAt]
    · unfold PacketBuffer.read_u16
      rw [read_ok pb h1]
      dsimp only
      rw [read_fail { pb with pos := pb.pos + 1 }
        (show pb.pos + 1 ≥ PACKET_BYTES_LENGTH by omega)]
      dsimp only
      rw [if_neg h2, if_pos h1]
  · unfold PacketBuffer.read_u16
    rw [read_fail pb (by omega)]
    dsimp only
    rw [if_neg (show ¬(pb.pos + 1 < PACKET_BYTES_LENGTH) by omega), if_neg h1]

/-! ### Claim C2: step -/

/-- Claim C2: for every buffer state and delta, if `pos + delta <
capacity` then `step delta` succeeds and the new position is `pos +
delta`; if `pos + delta ≥ capacity` it fails with the out-of-bounds step
error and the state is unchanged. -/
theorem step_spec (pb : PacketBuffer) (st : Nat) :
    (pb.pos + st < PACKET_BYTES_LENGTH →
      pb.step st = (Except.ok (), { pb with pos := pb.pos + st })) ∧
    (pb.pos + st ≥ PACKET_BYTES_LENGTH →
      pb.step st =
        (Except.error (BufErr.stepErr PACKET_BYTES_LENGTH pb.pos st), pb)) := by
  constructor <;> intro h <;> unfold PacketBuffer.step
  · rw [if_neg (by omega)]
  · rw [if_pos h]

/-- Witness for C2: both branches of `step_spec` at concrete inputs
(the spec's scenario: `step 513` from position 0 fails). -/
theorem step_spec_witness :
    (PacketBuffer.new zeroBuf).step 5 =
      (Except.ok (), { PacketBuffer.new zeroBuf with
        pos := (PacketBuffer.new zeroBuf).pos + 5 }) ∧
    (PacketBuffer.new zeroBuf).step 513 =
      (Except.error (BufErr.stepErr PACKET_BYTES_LENGTH
        (PacketBuffer.new zeroBuf).pos 513), PacketBuffer.new zeroBuf) :=
  ⟨(step_spec (PacketBuffer.new zeroBuf) 5).1 (by decide),
   (step_spec (PacketBuffer.new zeroBuf) 513).2 (by decide)⟩

/-! ### Claim C6: seek -/

/-- Claim C6: for every buffer state and target, if `target < capacity`
then `seek target` succeeds and the new position is `target`; if
`target ≥ capacity` it fails with the out-of-bounds seek error and the
state is unchanged. -/
theorem seek_spec (pb : PacketBuffer) (t : Nat) :
    (t < PACKET_BYTES_LENGTH →
      pb.seek t = (Except.ok (), { pb with pos := t })) ∧
    (t ≥ PACKET_BYTES_LENGTH →
      pb.seek t =
        (Except.error (BufErr.seekErr PACKET_BYTES_LENGTH t), pb)) := by
  constructor <;> intro h <;> unfold PacketBuffer.seek
  · rw [if_neg (by omega)]
  · rw [if_pos h]

/-- Witness for C6: both branches of `seek_spec` at concrete inputs
(the spec's scenario: `seek 600` on a 512-byte buffer fails). -/
theorem seek_spec_witness :
    (PacketBuffer.new zeroBuf).seek 51 =
      (Except.ok (), { PacketBuffer.new zeroBuf with pos := 51 }) ∧
    (PacketBuffer.new zeroBuf).seek 600 =
      (Except.error (BufErr.seekErr PACKET_BYTES_LENGTH 600),
        PacketBuffer.new zeroBuf) :=
  ⟨(seek_spec (PacketBuffer.new zeroBuf) 51).1 (by decide),
   (seek_spec (PacketBuffer.new zeroBuf) 600).2 (by decide)⟩

/-! ### Claim C3: read -/

/-- Repeat `read()` `n` times, collecting the bytes in order; stops at
the first failing read, as a caller loop propagating the error would. -/
def readMany : PacketBuffer → Nat → Except BufErr (List Nat) × PacketBuffer
  | pb, 0 => (Except.ok [], pb)
  | pb, n + 1 =>
    match pb.read with
    | (Except.error e, pb1) => (Except.error e, pb1)
    | (Except.ok b, pb1) =>
      match readMany pb1 n with
      | (Except.error e, pb2) => (Except.error e, pb2)
      | (Except.ok bs, pb2) => (Except.ok (b :: bs), pb2)

theorem readMany_ok (n : Nat) : ∀ pb : PacketBuffer,
    pb.pos + n ≤ PACKET_BYTES_LENGTH →
    readMany pb n =
      (Except.ok ((List.range n).map fun j => pb.byteAt (pb.pos + j)),
        { pb with pos := pb.pos + n }) := by
  induction n with
  | zero => intro pb h; simp [readMany]
  | succ n ih =>
    intro pb h
    unfold readMany
    rw [read_ok pb (by omega)]
    dsimp only
    rw [ih { pb with pos := pb.pos + 1 }
      (show pb.pos + 1 + n ≤ PACKET_BYTES_LENGTH by omega)]
    dsimp only
    rw [Prod.mk.injEq]
    refine ⟨?_, ?_⟩
    · rw [List.range_succ_eq_map, List.map_cons, List.map_map]
      refine congrArg Except.ok ?_
      refine congrArg₂ List.cons (congrArg pb.byteAt (by omega)) ?_
      refine List.map_congr_left fun j hj => ?_
      rw [byteAt_setPos]
      exact congrArg pb.byteAt (by omega)
    · rw [show pb.pos + 1 + n = pb.pos + (n + 1) by omega]

/-- Claim C3: `read()` at a position strictly below capacity returns the
byte stored at that position and advances the position by exactly 1;
from position 0, repeating `read()` `capacity` times succeeds, yields
every byte of `data` in index order, and leaves the position at
`capacity`; `read()` at position equal to capacity fails with an error
and leaves the state unchanged. -/
theorem read_spec (pb : PacketBuffer) :
    (pb.pos < PACKET_BYTES_LENGTH →
      pb.read = (Except.ok (pb.byteAt pb.pos), { pb with pos := pb.pos + 1 })) ∧
    (pb.pos = 0 →
      readMany pb PACKET_BYTES_LENGTH =
        (Except.ok ((List.range PACKET_BYTES_LENGTH).map pb.byteAt),
          { pb with pos := PACKET_BYTES_LENGTH })) ∧
    (pb.pos = PACKET_BYTES_LENGTH →
      pb.read =
        (Except.error
          (BufErr.readErr PACKET_BYTES_LENGTH PACKET_BYTES_LENGTH), pb)) := by
  refine ⟨fun h => read_ok pb h, fun h0 => ?_, fun hc => ?_⟩
  · rw [readMany_ok PACKET_BYTES_LENGTH pb (by omega)]
    rw [Prod.mk.injEq]
    refine ⟨?_, ?_⟩
    · refine congrArg Except.ok (List.map_congr_left fun j hj => ?_)
      rw [h0, Nat.zero_add]
    · rw [h0, Nat.zero_add]
  · rw [read_fail pb (by omega), hc]

/-- Witness for C3: the three branches of `read_spec` at concrete
states (reading `exBuf` from 0 gives byte 3; a full 512-read pass; a
read at position 512 fails). -/
theorem read_spec_witness :
    (PacketBuffer.new exBuf).read =
      (Except.ok ((PacketBuffer.new exBuf).byteAt 0),
        { PacketBuffer.new exBuf with pos := 0 + 1 }) ∧
    readMany (PacketBuffer.new exBuf) PACKET_BYTES_LENGTH =
      (Except.ok ((List.range PACKET_BYTES_LENGTH).map
          (PacketBuffer.new exBuf).byteAt),
        { PacketBuffer.new exBuf with pos := PACKET_BYTES_LENGTH }) ∧
    ({ buf := exBuf, pos := PACKET_BYTES_LENGTH } : PacketBuffer).read =
      (Except.error (BufErr.readErr PACKET_BYTES_LENGTH PACKET_BYTES_LENGTH),
        { buf := exBuf, pos := PACKET_BYTES_LENGTH }) :=
  ⟨(read_spec (PacketBuffer.new exBuf)).1 (by decide),
   (read_spec (PacketBuffer.new exBuf)).2.1 rfl,
   (read_spec { buf := exBuf, pos := PACKET_BYTES_LENGTH }).2.2 rfl⟩

/-! ### Claim C4: read_u16 -/

/-- Claim C4: `read_u16()` is two sequential `read()`s composed
big-endian.  On success (both reads in bounds) the result is
`(first_byte <<< 8) ||| second_byte` and the position advances by
exactly 2.  If the first read fails the state is unchanged and its
error is returned.  If the first succeeds and the second fails, the
position has advanced by exactly 1 and the second read's error is
returned. -/
theorem read_u16_spec (pb : PacketBuffer) :
    (pb.pos + 1 < PACKET_BYTES_LENGTH →
      pb.read_u16 =
        (Except.ok ((pb.byteAt pb.pos <<< 8) ||| pb.byteAt (pb.pos + 1)),
          { pb with pos := pb.pos + 2 })) ∧
    (pb.pos ≥ PACKET_BYTES_LENGTH →
      pb.read_u16 =
        (Except.error (BufErr.readErr PACKET_BYTES_LENGTH pb.pos), pb)) ∧
    (pb.pos + 1 = PACKET_BYTES_LENGTH →
      pb.read_u16 =
        (Except.error (BufErr.readErr PACKET_BYTES_LENGTH (pb.pos + 1)),
          { pb with pos := pb.pos + 1 })) := by
  refine ⟨fun h => ?_, fun h => ?_, fun h => ?_⟩
  · rw [read_u16_eq pb, if_pos h]
  · rw [read_u16_eq pb, if_neg (by omega), if_neg (by omega)]
  · rw [read_u16_eq pb, if_neg (by omega), if_pos (by omega)]

/-- Witness for C4: the three branches of `read_u16_spec` at concrete
states (the spec's scenario: bytes 0x03, 0x05 give 0x0305 with the
position at 2; a first-read failure at position 512; a second-read
failure from position 511). -/
theorem read_u16_spec_witness :
    (PacketBuffer.new exBuf).read_u16 =
      (Except.ok (((PacketBuffer.new exBuf).byteAt 0 <<< 8) |||
          (PacketBuffer.new exBuf).byteAt (0 + 1)),
        { PacketBuffer.new exBuf with pos := 0 + 2 }) ∧
    ({ buf := exBuf, pos := 512 } : PacketBuffer).read_u16 =
      (Except.error (BufErr.readErr PACKET_BYTES_LENGTH 512),
        { buf := exBuf, pos := 512 }) ∧
    ({ buf := exBuf, pos := 511 } : PacketBuffer).read_u16 =
      (Except.error (BufErr.readErr PACKET_BYTES_LENGTH (511 + 1)),
        { buf := exBuf, pos := 511 + 1 }) :=
  ⟨(read_u16_spec (PacketBuffer.new exBuf)).1 (by decide),
   (read_u16_spec { buf := exBuf, pos := 512 }).2.1 (by decide),
   (read_u16_spec { buf := exBuf, pos := 511 }).2.2 (by decide)⟩

/-! ### Claim C5: get_range -/

/-- Claim C5: for every start and length, `get_range start len` fails
with the out-of-bounds range error exactly when `start + len ≥
capacity`, and otherwise succeeds returning precisely the `len` bytes
at indices `start, start + 1, ..., start + len - 1` of the underlying
array (a direct slice); in both cases the buffer state — in particular
the position — is unchanged (`runOp` of a `get_range` call is the
identity). -/
theorem get_range_spec (pb : PacketBuffer) (start len : Nat) :
    (start + len ≥ PACKET_BYTES_LENGTH →
      pb.get_range start len =
        Except.error (BufErr.rangeErr PACKET_BYTES_LENGTH start len)) ∧
    (start + len < PACKET_BYTES_LENGTH →
      pb.get_range start len =
        Except.ok ((List.range len).map fun j => pb.byteAt (start + j))) ∧
    runOp pb (Op.rangeOp start len) = pb := by
  refine ⟨fun h => ?_, fun h => ?_, rfl⟩
  · unfold PacketBuffer.get_range
    rw [dif_pos h]
  · unfold PacketBuffer.get_range
    rw [dif_neg (by omega)]
    refine congrArg Except.ok ?_
    refine List.ext_getElem (by simp) fun i h1 h2 => ?_
    simp only [List.getElem_ofFn, List.getElem_map, List.getElem_range]
    unfold PacketBuffer.byteAt
    rw [dif_pos (by simp at h1; omega)]

/-- Witness for C5: both branches of `get_range_spec` at concrete
inputs (the spec's scenario: `get_range 500 20` fails on a 512-byte
buffer; `get_range 0 10` succeeds). -/
theorem get_range_spec_witness :
    (PacketBuffer.new exBuf).get_range 500 20 =
      Except.error (BufErr.rangeErr PACKET_BYTES_LENGTH 500 20) ∧
    (PacketBuffer.new exBuf).get_range 0 10 =
      Except.ok ((List.range 10).map fun j =>
        (PacketBuffer.new exBuf).byteAt (0 + j)) :=
  ⟨(get_range_spec (PacketBuffer.new exBuf) 500 20).1 (by decide),
   (get_range_spec (PacketBuffer.new exBuf) 0 10).2.1 (by decide)⟩

/-! ### Claim C7: get -/

/-- Claim C7: `get()` succeeds exactly when a `read()` from the same
state would, returning the same byte, while leaving the buffer state
unchanged (`runOp` of a `get` call is the identity); since the state is
unchanged, a repeated `get()` returns the same result. -/
theorem get_spec (pb : PacketBuffer) :
    (∀ b : Nat, pb.get = Except.ok b ↔ pb.read.1 = Except.ok b) ∧
    runOp pb Op.getOp = pb ∧
    (runOp pb Op.getOp).get = pb.get := by
  refine ⟨fun b => ?_, rfl, rfl⟩
  by_cases h : pb.pos < PACKET_BYTES_LENGTH
  · rw [read_ok pb h]
    unfold PacketBuffer.get PacketBuffer.byteAt
    rw [dif_neg (by omega), dif_pos h]
  · rw [read_fail pb (by omega)]
    unfold PacketBuffer.get
    rw [dif_pos (by omega)]
    simp

/-- Witness for C7: `get_spec` at a concrete state — on `exBuf` at
position 0, `get` and `read` agree on the byte 3, and `get` leaves the
state unchanged. -/
theorem get_spec_witness :
    ((PacketBuffer.new exBuf).get = Except.ok 3 ↔
      (PacketBuffer.new exBuf).read.1 = Except.ok 3) ∧
    runOp (PacketBuffer.new exBuf) Op.getOp = PacketBuffer.new exBuf ∧
    (runOp (PacketBuffer.new exBuf) Op.getOp).get =
      (PacketBuffer.new exBuf).get :=
  ⟨(get_spec (PacketBuffer.new exBuf)).1 3,
   (get_spec (PacketBuffer.new exBuf)).2.1,
   (get_spec (PacketBuffer.new exBuf)).2.2⟩

/-! ### Reachability helpers -/

theorem runOp_buf (pb : PacketBuffer) (op : Op) : (runOp pb op).buf = pb.buf := by
  cases op with
  | stepOp st =>
    show ((pb.step st).2).buf = pb.buf
    unfold PacketBuffer.step
    split_ifs <;> rfl
  | seekOp t =>
    show ((pb.seek t).2).buf = pb.buf
    unfold PacketBuffer.seek
    split_ifs <;> rfl
  | readOp =>
    show (pb.read.2).buf = pb.buf
    unfold PacketBuffer.read
    split_ifs <;> rfl
  | readU16Op =>
    show (pb.read_u16.2).buf = pb.buf
    rw [read_u16_eq pb]
    split_ifs <;> rfl
  | getOp => rfl
  | rangeOp start len => rfl
  | posOp => rfl

theorem runSeq_buf (ops : List Op) : ∀ pb : PacketBuffer,
    (runSeq pb ops).buf = pb.buf := by
  induction ops with
  | nil => intro pb; rfl
  | cons op ops ih =>
    intro pb
    show (runSeq (runOp pb op) ops).buf = pb.buf
    rw [ih (runOp pb op), runOp_buf]

theorem runOp_pos_le (pb : PacketBuffer) (op : Op)
    (h : pb.pos ≤ PACKET_BYTES_LENGTH) :
    (runOp pb op).pos ≤ PACKET_BYTES_LENGTH := by
  cases op with
  | stepOp st =>
    show ((pb.step st).2).pos ≤ PACKET_BYTES_LENGTH
    unfold PacketBuffer.step
    split_ifs with g <;> dsimp only <;> omega
  | seekOp t =>
    show ((pb.seek t).2).pos ≤ PACKET_BYTES_LENGTH
    unfold PacketBuffer.seek
    split_ifs with g <;> dsimp only <;> omega
  | readOp =>
    show (pb.read.2).pos ≤ PACKET_BYTES_LENGTH
    unfold PacketBuffer.read
    split_ifs with g <;> dsimp only <;> omega
  | readU16Op =>
    show (pb.read_u16.2).pos ≤ PACKET_BYTES_LENGTH
    rw [read_u16_eq pb]
    split_ifs with g1 g2 <;> dsimp only <;> omega
  | getOp => exact h
  | rangeOp start len => exact h
  | posOp => exact h

theorem runSeq_pos_le (ops : List Op) : ∀ pb : PacketBuffer,
    pb.pos ≤ PACKET_BYTES_LENGTH →
    (runSeq pb ops).pos ≤ PACKET_BYTES_LENGTH := by
  induction ops with
  | nil => intro pb h; exact h
  | cons op ops ih =>
    intro pb h
    show (runSeq (runOp pb op) ops).pos ≤ PACKET_BYTES_LENGTH
    exact ih (runOp pb op) (runOp_pos_le pb op h)

/-! ### Claim C8: position invariant -/

/-- Claim C8: in every state reachable from a freshly constructed
buffer by any sequence of calls, `position ≤ capacity` (positions are
naturals, so `0 ≤ position` is automatic); moreover a call moves the
position to `capacity` from somewhere else only when it is a `read`
executed at `capacity - 1` or a `read_u16` executed at `capacity - 2`
or `capacity - 1` (whose inner byte reads succeed at `capacity - 1`) —
never a `step` or a `seek`. -/
theorem position_invariant (b : Fin PACKET_BYTES_LENGTH → Nat)
    (ops : List Op) (pb : PacketBuffer) (op : Op) :
    (runSeq (PacketBuffer.new b) ops).pos ≤ PACKET_BYTES_LENGTH ∧
    (pb.pos ≤ PACKET_BYTES_LENGTH → pb.pos ≠ PACKET_BYTES_LENGTH →
      (runOp pb op).pos = PACKET_BYTES_LENGTH →
      (op = Op.readOp ∧ pb.pos = PACKET_BYTES_LENGTH - 1) ∨
      (op = Op.readU16Op ∧
        (pb.pos = PACKET_BYTES_LENGTH - 2 ∨
          pb.pos = PACKET_BYTES_LENGTH - 1))) := by
  constructor
  · exact runSeq_pos_le ops (PacketBuffer.new b) (Nat.zero_le _)
  · intro h1 h2 h3
    cases op with
    | stepOp st =>
      exfalso
      simp only [runOp] at h3
      unfold PacketBuffer.step at h3
      split_ifs at h3 with g <;> dsimp only at h3 <;> omega
    | seekOp t =>
      exfalso
      simp only [runOp] at h3
      unfold PacketBuffer.seek at h3
      split_ifs at h3 with g <;> dsimp only at h3 <;> omega
    | readOp =>
      simp only [runOp] at h3
      unfold PacketBuffer.read at h3
      split_ifs at h3 with g <;> dsimp only at h3
      · omega
      · exact Or.inl ⟨rfl, by omega⟩
    | readU16Op =>
      simp only [runOp] at h3
      rw [read_u16_eq pb] at h3
      split_ifs at h3 with g1 g2 <;> dsimp only at h3
      · exact Or.inr ⟨rfl, Or.inl (by omega)⟩
      · exact Or.inr ⟨rfl, Or.inr (by omega)⟩
      · omega
    | getOp => exact absurd h3 h2
    | rangeOp start len => exact absurd h3 h2
    | posOp => exact absurd h3 h2

/-- Witness for C8: the sequence `seek 511; read` reaches position 512
and stays within bounds, and the transition into 512 from the concrete
state at 511 is classified as a `read` at `capacity - 1`. -/
theorem position_invariant_witness :
    (runSeq (PacketBuffer.new zeroBuf) [Op.seekOp 511, Op.readOp]).pos ≤
      PACKET_BYTES_LENGTH ∧
    ((Op.readOp = Op.readOp ∧ (511 : Nat) = PACKET_BYTES_LENGTH - 1) ∨
      (Op.readOp = Op.readU16Op ∧
        ((511 : Nat) = PACKET_BYTES_LENGTH - 2 ∨
          (511 : Nat) = PACKET_BYTES_LENGTH - 1))) :=
  ⟨(position_invariant zeroBuf [Op.seekOp 511, Op.readOp]
      { buf := zeroBuf, pos := 511 } Op.readOp).1,
   (position_invariant zeroBuf [Op.seekOp 511, Op.readOp]
      { buf := zeroBuf, pos := 511 } Op.readOp).2
     (by decide) (by decide) (by decide)⟩

/-! ### Claim C10: the data is never modified -/

/-- Claim C10: no sequence of buffer calls ever modifies the underlying
byte array — after any sequence of `step`, `seek`, `read`, `read_u16`,
`get`, `get_range` and `pos` calls on a freshly constructed buffer, the
`buf` field still equals the array supplied at construction. -/
theorem buf_never_modified (b : Fin PACKET_BYTES_LENGTH → Nat)
    (ops : List Op) :
    (runSeq (PacketBuffer.new b) ops).buf = b :=
  runSeq_buf ops (PacketBuffer.new b)

/-! ### Claim C1: failure leaves the state unchanged (amended) -/

/-- Counterexample to C1 as stated: `read_u16` at position 511 fails
(the second inner read is out of bounds) yet returns with the position
advanced to 512, so a failing operation does not always leave the
buffer state as it was before the call. -/
theorem read_u16_partial_advance_cex :
    ({ buf := zeroBuf, pos := 511 } : PacketBuffer).read_u16.1 =
      Except.error (BufErr.readErr PACKET_BYTES_LENGTH 512) ∧
    ({ buf := zeroBuf, pos := 511 } : PacketBuffer).read_u16.2.pos = 512 ∧
    ({ buf := zeroBuf, pos := 511 } : PacketBuffer).pos = 511 ∧
    (512 : Nat) ≠ 511 :=
  ⟨rfl, rfl, rfl, by decide⟩

/-- Claim C1 amended: each primitive operation (`step`, `seek`, `read`,
`get`, `get_range`) either succeeds and updates the position, or fails
with the buffer state exactly as it was before the call; `get` and
`get_range` never mutate at all.  The composed `read_u16` is the
exception the counterexample forces: it leaves the state unchanged when
its first inner read fails, but when the first inner read succeeds and
the second fails it returns with the position advanced by exactly 1. -/
theorem mutation_only_on_success (pb : PacketBuffer) (st t start len : Nat) :
    ((pb.step st).1 = Except.ok () →
      (pb.step st).2 = { pb with pos := pb.pos + st }) ∧
    (∀ e, (pb.step st).1 = Except.error e → (pb.step st).2 = pb) ∧
    ((pb.seek t).1 = Except.ok () → (pb.seek t).2 = { pb with pos := t }) ∧
    (∀ e, (pb.seek t).1 = Except.error e → (pb.seek t).2 = pb) ∧
    (∀ v, pb.read.1 = Except.ok v →
      pb.read.2 = { pb with pos := pb.pos + 1 }) ∧
    (∀ e, pb.read.1 = Except.error e → pb.read.2 = pb) ∧
    runOp pb Op.getOp = pb ∧
    runOp pb (Op.rangeOp start len) = pb ∧
    (∀ v, pb.read_u16.1 = Except.ok v →
      pb.read_u16.2 = { pb with pos := pb.pos + 2 }) ∧
    (pb.pos ≥ PACKET_BYTES_LENGTH → pb.read_u16.2 = pb) ∧
    (pb.pos + 1 = PACKET_BYTES_LENGTH →
      pb.read_u16.2 = { pb with pos := pb.pos + 1 }) := by
  refine ⟨?_, ?_, ?_, ?_, ?_, ?_, rfl, rfl, ?_, ?_, ?_⟩
  · intro h
    by_cases g : pb.pos + st ≥ PACKET_BYTES_LENGTH
    · simp [PacketBuffer.step, g] at h
    · simp [PacketBuffer.step, g]
  · intro e h
    by_cases g : pb.pos + st ≥ PACKET_BYTES_LENGTH
    · simp [PacketBuffer.step, g]
    · simp [PacketBuffer.step, g] at h
  · intro h
    by_cases g : t ≥ PACKET_BYTES_LENGTH
    · simp [PacketBuffer.seek, g] at h
    · simp [PacketBuffer.seek, g]
  · intro e h
    by_cases g : t ≥ PACKET_BYTES_LENGTH
    · simp [PacketBuffer.seek, g]
    · simp [PacketBuffer.seek, g] at h
  · intro v h
    by_cases g : pb.pos < PACKET_BYTES_LENGTH
    · rw [read_ok pb g]
    · rw [read_fail pb (by omega)] at h
      simp at h
  · intro e h
    by_cases g : pb.pos < PACKET_BYTES_LENGTH
    · rw [read_ok pb g] at h
      simp at h
    · rw [read_fail pb (by omega)]
  · intro v h
    by_cases g1 : pb.pos + 1 < PACKET_BYTES_LENGTH
    · rw [read_u16_eq pb, if_pos g1]
    · exfalso
      rw [read_u16_eq pb, if_neg g1] at h
      by_cases g2 : pb.pos < PACKET_BYTES_LENGTH
      · rw [if_pos g2] at h
        simp at h
      · rw [if_neg g2] at h
        simp at h
  · intro g
    rw [read_u16_eq pb, if_neg (by omega), if_neg (by omega)]
  · intro g
    rw [read_u16_eq pb, if_neg (by omega), if_pos (by omega)]

/-- Witness for the amended C1: a successful `step` updates the
position; a failing `step` leaves the state untouched; `read_u16` from
position 511 fails with the position advanced by exactly 1. -/
theorem mutation_only_on_success_witness :
    ((PacketBuffer.new zeroBuf).step 5).2 =
      { PacketBuffer.new zeroBuf with
        pos := (PacketBuffer.new zeroBuf).pos + 5 } ∧
    ((PacketBuffer.new zeroBuf).step 513).2 = PacketBuffer.new zeroBuf ∧
    ({ buf := zeroBuf, pos := 511 } : PacketBuffer).read_u16.2 =
      { buf := zeroBuf, pos := 511 + 1 } :=
  ⟨(mutation_only_on_success (PacketBuffer.new zeroBuf) 5 0 0 0).1 rfl,
   (mutation_only_on_success (PacketBuffer.new zeroBuf) 513 0 0 0).2.1
     (BufErr.stepErr PACKET_BYTES_LENGTH 0 513) rfl,
   (mutation_only_on_success
     { buf := zeroBuf, pos := 511 } 0 0 0 0).2.2.2.2.2.2.2.2.2.2 rfl⟩

/-! ### Claim C9: error contents (amended) -/

/-- Counterexample to C9 as stated: two failing `seek` calls from
states that differ only in the current position return the very same
error value — the `seek` error carries only the capacity and the seek
target, so it does not identify the current position. -/
theorem seek_error_no_pos_cex :
    (({ buf := zeroBuf, pos := 0 } : PacketBuffer).seek 600).1 =
      (({ buf := zeroBuf, pos := 7 } : PacketBuffer).seek 600).1 ∧
    (({ buf := zeroBuf, pos := 0 } : PacketBuffer).seek 600).1 =
      Except.error (BufErr.seekErr PACKET_BYTES_LENGTH 600) ∧
    ({ buf := zeroBuf, pos := 0 } : PacketBuffer).pos ≠
      ({ buf := zeroBuf, pos := 7 } : PacketBuffer).pos :=
  ⟨rfl, rfl, by decide⟩

/-- Claim C9 amended: every failing operation returns the error of its
own operation-specific template, carrying the buffer capacity; `step`'s
error additionally carries the current position and the step size, and
`read`'s and `get`'s carry the current position; but `seek`'s error
carries only the seek target (not the current position), and
`get_range`'s carries only the range start and length (not the current
position). -/
theorem error_contents (pb : PacketBuffer) (st t start len : Nat) :
    (pb.pos + st ≥ PACKET_BYTES_LENGTH →
      (pb.step st).1 =
        Except.error (BufErr.stepErr PACKET_BYTES_LENGTH pb.pos st)) ∧
    (t ≥ PACKET_BYTES_LENGTH →
      (pb.seek t).1 =
        Except.error (BufErr.seekErr PACKET_BYTES_LENGTH t)) ∧
    (pb.pos ≥ PACKET_BYTES_LENGTH →
      pb.read.1 =
        Except.error (BufErr.readErr PACKET_BYTES_LENGTH pb.pos)) ∧
    (pb.pos ≥ PACKET_BYTES_LENGTH →
      pb.get = Except.error (BufErr.getErr PACKET_BYTES_LENGTH pb.pos)) ∧
    (start + len ≥ PACKET_BYTES_LENGTH →
      pb.get_range start len =
        Except.error (BufErr.rangeErr PACKET_BYTES_LENGTH start len)) := by
  refine ⟨fun h => ?_, fun h => ?_, fun h => ?_, fun h => ?_, fun h => ?_⟩
  · unfold PacketBuffer.step
    rw [if_pos h]
  · unfold PacketBuffer.seek
    rw [if_pos h]
  · rw [read_fail pb h]
  · unfold PacketBuffer.get
    rw [dif_pos h]
  · unfold PacketBuffer.get_range
    rw [dif_pos h]

/-- Witness for the amended C9: each of the five failing operations at
a concrete out-of-bounds input returns the error of its own template
with the expected values. -/
theorem error_contents_witness :
    (({ buf := zeroBuf, pos := 0 } : PacketBuffer).step 513).1 =
      Except.error (BufErr.stepErr PACKET_BYTES_LENGTH 0 513) ∧
    (({ buf := zeroBuf, pos := 0 } : PacketBuffer).seek 600).1 =
      Except.error (BufErr.seekErr PACKET_BYTES_LENGTH 600) ∧
    ({ buf := zeroBuf, pos := 512 } : PacketBuffer).read.1 =
      Except.error (BufErr.readErr PACKET_BYTES_LENGTH 512) ∧
    ({ buf := zeroBuf, pos := 512 } : PacketBuffer).get =
      Except.error (BufErr.getErr PACKET_BYTES_LENGTH 512) ∧
    ({ buf := zeroBuf, pos := 0 } : PacketBuffer).get_range 500 20 =
      Except.error (BufErr.rangeErr PACKET_BYTES_LENGTH 500 20) :=
  ⟨(error_contents { buf := zeroBuf, pos := 0 } 513 600 500 20).1 (by decide),
   (error_contents { buf := zeroBuf, pos := 0 } 513 600 500 20).2.1 (by decide),
   (error_contents { buf := zeroBuf, pos := 512 } 0 0 0 0).2.2.1 (by decide),
   (error_contents { buf := zeroBuf, pos := 512 } 0 0 0 0).2.2.2.1 (by decide),
   (error_contents { buf := zeroBuf, pos := 0 } 0 0 500 20).2.2.2.2 (by decide)⟩
